import Mathlib

/-!
Verification development for the interactive diagram engine in
`src/diagram.ts` (classes `Rectangle` and `Chart`).

The TypeScript source is shallowly embedded: JavaScript numbers are
modelled as exact rationals (`ℚ`), JS `Map` objects as insertion-ordered
association lists, optional fields as `Option`, and the two sources of
nondeterminism in the code (`Math.random()` in `Chart.addRectangle`) as
explicit oracle arguments.  Event handlers become pure state
transformers on a `Chart` record.
-/

namespace Diagram

/-- A 2D point, matching the `Point` interface of `diagram.ts`. -/
structure Point where
  x : ℚ
  y : ℚ
deriving DecidableEq

/-- One entry row of a rectangle (`RectEntry` in `diagram.ts`). -/
structure RectEntry where
  id : String
  left : String
  right : String
deriving DecidableEq

/-- The caller-supplied payload of a rectangle (`RectData`). -/
structure RectData where
  id : String
  title : String
  entries : List RectEntry
deriving DecidableEq

/-- The view transform (`Transform`): scale plus translation. -/
structure Transform where
  scale : ℚ
  translateX : ℚ
  translateY : ℚ
deriving DecidableEq

/-- Result of hit classification (`HitPart` in `diagram.ts`). -/
inductive HitPart where
  | inside
  | left
  | right
  | top
  | bottom
  | topLeft
  | topRight
  | bottomLeft
  | bottomRight
deriving DecidableEq

/-- One side of a connection (`Endpoint`): a rectangle id plus an
optional entry id.  The TS field `entryId?: string` can be `undefined`,
modelled as `none`. -/
structure Endpoint where
  rectId : String
  entryId : Option String
deriving DecidableEq

/-- A connection between two endpoints (`Connection`). -/
structure Connection where
  id : String
  sideA : Endpoint
  sideB : Endpoint
deriving DecidableEq

/-- A draggable, resizable rectangle (class `Rectangle`). -/
structure Rectangle where
  x : ℚ
  y : ℚ
  width : ℚ
  height : ℚ
  data : RectData
deriving DecidableEq

/-- The `id` getter of class `Rectangle`: `get id() { return this.data.id }`. -/
def Rectangle.id (r : Rectangle) : String := r.data.id

/-- Static field `Rectangle.edgeThreshold = 6`. -/
def edgeThreshold : ℚ := 6

/-- Local const `inX` of `Rectangle.getHitPart`:
`px > this.x - t && px < this.x + this.width + t`. -/
def inXP (r : Rectangle) (px : ℚ) : Prop :=
  r.x - edgeThreshold < px ∧ px < r.x + r.width + edgeThreshold

/-- Local const `inY` of `Rectangle.getHitPart`. -/
def inYP (r : Rectangle) (py : ℚ) : Prop :=
  r.y - edgeThreshold < py ∧ py < r.y + r.height + edgeThreshold

/-- Local const `nearLeft` of `Rectangle.getHitPart`:
`leftDist < t && inY` with `leftDist = Math.abs(px - this.x)`. -/
def nearLeftP (r : Rectangle) (px py : ℚ) : Prop :=
  |px - r.x| < edgeThreshold ∧ inYP r py

/-- Local const `nearRight` of `Rectangle.getHitPart`. -/
def nearRightP (r : Rectangle) (px py : ℚ) : Prop :=
  |px - (r.x + r.width)| < edgeThreshold ∧ inYP r py

/-- Local const `nearTop` of `Rectangle.getHitPart`. -/
def nearTopP (r : Rectangle) (px py : ℚ) : Prop :=
  |py - r.y| < edgeThreshold ∧ inXP r px

/-- Local const `nearBottom` of `Rectangle.getHitPart`. -/
def nearBottomP (r : Rectangle) (px py : ℚ) : Prop :=
  |py - (r.y + r.height)| < edgeThreshold ∧ inXP r px

instance (r : Rectangle) (px : ℚ) : Decidable (inXP r px) :=
  inferInstanceAs (Decidable (_ ∧ _))

instance (r : Rectangle) (py : ℚ) : Decidable (inYP r py) :=
  inferInstanceAs (Decidable (_ ∧ _))

instance (r : Rectangle) (px py : ℚ) : Decidable (nearLeftP r px py) :=
  inferInstanceAs (Decidable (_ ∧ _))

instance (r : Rectangle) (px py : ℚ) : Decidable (nearRightP r px py) :=
  inferInstanceAs (Decidable (_ ∧ _))

instance (r : Rectangle) (px py : ℚ) : Decidable (nearTopP r px py) :=
  inferInstanceAs (Decidable (_ ∧ _))

instance (r : Rectangle) (px py : ℚ) : Decidable (nearBottomP r px py) :=
  inferInstanceAs (Decidable (_ ∧ _))

/-- Hit classification, `Rectangle.getHitPart(px, py)`, ported clause by
clause from `diagram.ts`; the method's local consts are the named
predicates above. -/
def Rectangle.getHitPart (r : Rectangle) (px py : ℚ) : Option HitPart :=
  if nearLeftP r px py ∧ nearTopP r px py then some .topLeft
  else if nearRightP r px py ∧ nearTopP r px py then some .topRight
  else if nearLeftP r px py ∧ nearBottomP r px py then some .bottomLeft
  else if nearRightP r px py ∧ nearBottomP r px py then some .bottomRight
  else if nearLeftP r px py then some .left
  else if nearRightP r px py then some .right
  else if nearTopP r px py then some .top
  else if nearBottomP r px py then some .bottom
  else if inXP r px ∧ inYP r py then some .inside
  else none

/-- The style constants relevant to geometry (`RECT_STYLE`). -/
structure Style where
  padding : ℚ
  lineHeight : ℚ
  titleFontSize : ℚ
  entryFontSize : ℚ
  minWidth : ℚ
deriving DecidableEq

/-- Values of `RECT_STYLE` in `diagram.ts` (colour/font-family strings
omitted: they never enter geometry). -/
def RECT_STYLE : Style := { padding := 8, lineHeight := 18, titleFontSize := 16, entryFontSize := 14, minWidth := 50 }

/-- Mirror of `part.includes("left")` over the literal names of the
`HitPart` strings (it holds for `"left"`, `"top-left"`, `"bottom-left"`). -/
def HitPart.hasLeft : HitPart → Bool
  | .left | .topLeft | .bottomLeft => true
  | _ => false

/-- Mirror of `part.includes("right")`. -/
def HitPart.hasRight : HitPart → Bool
  | .right | .topRight | .bottomRight => true
  | _ => false

/-- Mirror of `part.includes("top")`. -/
def HitPart.hasTop : HitPart → Bool
  | .top | .topLeft | .topRight => true
  | _ => false

/-- Mirror of `part.includes("bottom")`. -/
def HitPart.hasBottom : HitPart → Bool
  | .bottom | .bottomLeft | .bottomRight => true
  | _ => false

section AssocMap

variable {κ : Type} {α : Type} [DecidableEq κ]

/-- JS `Map.prototype.set`: update the existing entry in place (keeping
insertion order) or append a fresh one. -/
def setKV : List (κ × α) → κ → α → List (κ × α)
  | [], k, v => [(k, v)]
  | kv :: rest, k, v => if kv.1 = k then (k, v) :: rest else kv :: setKV rest k v

/-- JS `Map.prototype.get` (`undefined` becomes `none`). -/
def getKV : List (κ × α) → κ → Option α
  | [], _ => none
  | kv :: rest, k => if kv.1 = k then some kv.2 else getKV rest k

/-- JS `Map.prototype.has`. -/
def hasKV (m : List (κ × α)) (k : κ) : Bool :=
  (getKV m k).isSome

/-- JS `Map.prototype.delete` (the boolean result is recovered via
`hasKV` where the source uses it). -/
def delKV : List (κ × α) → κ → List (κ × α)
  | [], _ => []
  | kv :: rest, k => if kv.1 = k then rest else kv :: delKV rest k

theorem getKV_setKV_self (m : List (κ × α)) (k : κ) (v : α) :
    getKV (setKV m k v) k = some v := by
  induction m with
  | nil => simp [setKV, getKV]
  | cons kv rest ih =>
    by_cases h : kv.1 = k
    · simp [setKV, getKV, h]
    · simp [setKV, getKV, h, ih]

theorem length_setKV_of_has (m : List (κ × α)) (k : κ) (v : α)
    (h : hasKV m k = true) : (setKV m k v).length = m.length := by
  induction m with
  | nil => simp [hasKV, getKV] at h
  | cons kv rest ih =>
    by_cases hk : kv.1 = k
    · simp [setKV, hk]
    · simp only [hasKV, getKV, if_neg hk] at h
      simp [setKV, hk, ih h]

theorem length_setKV_of_not_has (m : List (κ × α)) (k : κ) (v : α)
    (h : hasKV m k = false) : (setKV m k v).length = m.length + 1 := by
  induction m with
  | nil => simp [setKV]
  | cons kv rest ih =>
    by_cases hk : kv.1 = k
    · simp [hasKV, getKV, hk] at h
    · simp only [hasKV, getKV, if_neg hk] at h
      simp [setKV, hk, ih h]

end AssocMap

/-- Rational square root used to model `Math.hypot`.  `Math.hypot`
returns a floating-point approximation of the true square root; we
model it by a rational approximation that is exact whenever the true
value is rational (numerator and denominator of the reduced input both
perfect squares), is zero exactly at zero, and is positive exactly on
positive inputs.  The theorems below depend only on those sign
properties and on the value symbolically. -/
def ratSqrt (q : ℚ) : ℚ :=
  (Nat.sqrt q.num.toNat : ℚ) / (Nat.sqrt q.den : ℚ)

/-- Model of `Math.hypot(dx, dy)`. -/
def hypot (dx dy : ℚ) : ℚ :=
  ratSqrt (dx * dx + dy * dy)

theorem ratSqrt_pos {q : ℚ} (hq : 0 < q) : 0 < ratSqrt q := by
  have hnum : 0 < q.num := Rat.num_pos.mpr hq
  have hnum2 : 0 < q.num.toNat := by omega
  have hden : 0 < q.den := q.pos
  have h1 : 0 < Nat.sqrt q.num.toNat := Nat.sqrt_pos.mpr hnum2
  have h2 : 0 < Nat.sqrt q.den := Nat.sqrt_pos.mpr hden
  exact div_pos (by exact_mod_cast h1) (by exact_mod_cast h2)

theorem hypot_pos {dx dy : ℚ} (h : ¬(dx = 0 ∧ dy = 0)) : 0 < hypot dx dy := by
  apply ratSqrt_pos
  by_cases hx : dx = 0
  · have hy : dy ≠ 0 := fun hy => h ⟨hx, hy⟩
    have : 0 < dy * dy := mul_self_pos.mpr hy
    nlinarith
  · have : 0 < dx * dx := mul_self_pos.mpr hx
    nlinarith

/-- State recorded in `this.draggingRect`.  The TS code stores a live
object reference to the `Rectangle`; we store its map key instead and
resolve it at use sites (during a gesture the reference and the map
entry coincide). -/
structure DragState where
  rectId : String
  start : Point
  initPos : Point
deriving DecidableEq

/-- State recorded in `this.resizingRect` (`init` is the geometry at
gesture start). -/
structure ResizeState where
  rectId : String
  part : HitPart
  start : Point
  initX : ℚ
  initY : ℚ
  initW : ℚ
  initH : ℚ
deriving DecidableEq

/-- State recorded in `this.panning`. -/
structure PanState where
  start : Point
  initTrans : Transform
deriving DecidableEq

/-- State recorded in `this.pinch`. -/
structure PinchState where
  startDist : ℚ
  startScale : ℚ
  mid : Point
deriving DecidableEq

/-- The mutable state of class `Chart`.  The canvas dimensions stand in
for `this.canvas.width/height`; the 2D drawing context performs no state
mutation relevant to the claims and is omitted. -/
structure Chart where
  canvasWidth : ℚ
  canvasHeight : ℚ
  rectangles : List (String × Rectangle)
  transform : Transform
  pointers : List (Nat × Point)
  connections : List (String × Connection)
  draggingRect : Option DragState
  resizingRect : Option ResizeState
  panning : Option PanState
  pinch : Option PinchState
deriving DecidableEq

/-- `Chart.screenToWorld(x, y)`. -/
def screenToWorld (t : Transform) (x y : ℚ) : Point :=
  { x := (x - t.translateX) / t.scale, y := (y - t.translateY) / t.scale }

/-- `Chart.calculateMinimumHeight(r, scale)`. -/
def calculateMinimumHeight (r : Rectangle) (scale : ℚ) : ℚ :=
  let titleFontSize := RECT_STYLE.titleFontSize / scale
  let titleLineHeight := titleFontSize * 1.2
  let entryLineHeight := RECT_STYLE.lineHeight / scale
  let pad := RECT_STYLE.padding / scale
  let contentHeight := titleLineHeight + (r.data.entries.length : ℚ) * entryLineHeight
  contentHeight + pad * 2

/-- Helper for `Chart.hitTest`: scan a list of keyed rectangles and
return the first hit.  The TS code returns the `Rectangle` object; we
also surface its map key. -/
def hitTestList (x y : ℚ) : List (String × Rectangle) → Option (String × Rectangle × HitPart)
  | [] => none
  | (k, r) :: rest =>
    match r.getHitPart x y with
    | some part => some (k, r, part)
    | none => hitTestList x y rest

/-- `Chart.hitTest(x, y)`: iterate `rectangles.values()` in reverse
insertion order, returning the first rectangle whose `getHitPart` is
non-null. -/
def hitTest (c : Chart) (x y : ℚ) : Option (String × Rectangle × HitPart) :=
  hitTestList x y c.rectangles.reverse

/-- `Chart.addRectangle(data)`.  The two `Math.random()` draws are the
oracle arguments `rx ry` (each in `[0,1)` for a real browser).  The TS
method body has no `return` statement, so the JS call expression
evaluates to `undefined`; the second component models that returned
value (`none` = `undefined`). -/
def addRectangle (c : Chart) (data : RectData) (rx ry : ℚ) : Chart × Option String :=
  let w : ℚ := 200
  let h : ℚ := 120
  let x := rx * (c.canvasWidth / c.transform.scale - w)
  let y := ry * (c.canvasHeight / c.transform.scale - h)
  let rect : Rectangle := { x := x, y := y, width := w, height := h, data := data }
  ({ c with rectangles := setKV c.rectangles rect.id rect }, none)

/-- `Chart.removeRectangle(id)`. -/
def removeRectangle (c : Chart) (id : String) : Chart × Bool :=
  ({ c with rectangles := delKV c.rectangles id }, hasKV c.rectangles id)

/-- `Chart.updateRectangle(id, data)`: in TS the payload of the stored
`Rectangle` object is replaced in place (`rect.data = data`). -/
def updateRectangle (c : Chart) (id : String) (data : RectData) : Chart × Bool :=
  match getKV c.rectangles id with
  | none => (c, false)
  | some rect =>
    ({ c with rectangles := setKV c.rectangles id { rect with data := data } }, true)

/-- `Chart.addConnection(sideA, sideB)`; `crypto.randomUUID()` is the
oracle argument `freshId`. -/
def addConnection (c : Chart) (sideA sideB : Endpoint) (freshId : String) : Chart × String :=
  ({ c with connections := setKV c.connections freshId { id := freshId, sideA := sideA, sideB := sideB } }, freshId)

/-- `Chart.removeConnection(id)`. -/
def removeConnection (c : Chart) (id : String) : Chart × Bool :=
  ({ c with connections := delKV c.connections id }, hasKV c.connections id)

/-- `Chart.getConnections()`: `Array.from(this.connections.values())`. -/
def getConnections (c : Chart) : List Connection :=
  c.connections.map (fun kv => kv.2)

/-- `Chart.getConnectionsForRect(rectId)`. -/
def getConnectionsForRect (c : Chart) (rectId : String) : List Connection :=
  (getConnections c).filter (fun conn => conn.sideA.rectId = rectId ∨ conn.sideB.rectId = rectId)

/-- `Chart.getEndpointPosition(ep, isFrom)`.  A JS `if (ep.entryId)`
guard is truthiness: `undefined` and the empty string both skip the
entry branch. -/
def getEndpointPosition (c : Chart) (ep : Endpoint) (isFrom : Bool) : Point :=
  match getKV c.rectangles ep.rectId with
  | none => { x := 0, y := 0 }
  | some r =>
    let scale := c.transform.scale
    let pad := RECT_STYLE.padding / scale
    let titleFontSize := RECT_STYLE.titleFontSize / scale
    let titleLineHeight := titleFontSize * 1.2
    let entryLineHeight := RECT_STYLE.lineHeight / scale
    let titleY := r.y + pad
    let entryHit :=
      match ep.entryId with
      | some eid =>
        if eid = "" then none
        else r.data.entries.findIdx? (fun e => e.id = eid)
      | none => none
    match entryHit with
    | some idx =>
      { x := if isFrom then r.x + r.width - pad else r.x + pad,
        y := titleY + titleLineHeight + (idx : ℚ) * entryLineHeight + entryLineHeight / 2 }
    | none => { x := r.x + r.width / 2, y := r.y + r.height / 2 }

/-- Pinch-start state computed in `handlePointerDown` when the pointer
map has exactly two entries (`pts = Array.from(this.pointers.values())`;
the `none` arm is unreachable at the call site). -/
def pinchStartState (pts : List Point) (t : Transform) : Option PinchState :=
  match pts with
  | p0 :: p1 :: _ =>
    let dx := p1.x - p0.x
    let dy := p1.y - p0.y
    let dist := hypot dx dy
    some { startDist := dist, startScale := t.scale,
           mid := { x := (p0.x + p1.x) / 2, y := (p0.y + p1.y) / 2 } }
  | _ => none

/-- `Chart.handlePointerDown(e)` for a pointer event with id `pid` at
client position `sp` (the `setPointerCapture`/cursor calls touch no
modelled state). -/
def handlePointerDown (c : Chart) (pid : Nat) (sp : Point) : Chart :=
  let ptrs := setKV c.pointers pid sp
  if ptrs.length = 2 then
    { c with pointers := ptrs,
             pinch := pinchStartState (ptrs.map (fun kv => kv.2)) c.transform }
  else
    let w := screenToWorld c.transform sp.x sp.y
    match hitTest c w.x w.y with
    | some (rid, rect, part) =>
      if part = HitPart.inside then
        { c with pointers := ptrs,
                 draggingRect := some { rectId := rid, start := sp, initPos := { x := rect.x, y := rect.y } } }
      else
        { c with pointers := ptrs,
                 resizingRect := some { rectId := rid, part := part, start := sp,
                                        initX := rect.x, initY := rect.y,
                                        initW := rect.width, initH := rect.height } }
    | none =>
      { c with pointers := ptrs, panning := some { start := sp, initTrans := c.transform } }

/-- The pinch branch of `handlePointerMove`: recompute the scale from
the current inter-pointer distance and re-anchor the translation so the
recorded midpoint keeps its world image. -/
def pinchMove (pz : PinchState) (t : Transform) (p0 p1 : Point) : Transform :=
  let dx := p1.x - p0.x
  let dy := p1.y - p0.y
  let dist := hypot dx dy
  let scale := dist / pz.startDist * pz.startScale
  let w0 := screenToWorld t pz.mid.x pz.mid.y
  { scale := scale,
    translateX := pz.mid.x - w0.x * scale,
    translateY := pz.mid.y - w0.y * scale }

/-- The resize branch of `handlePointerMove`, acting on the rectangle
being resized.  Ported statement by statement: propose new edges from
the gesture-start geometry plus the pointer delta, then clamp to the
minimum size, pinning the opposite edge via the rectangle's current
geometry. -/
def resizeStep (rs : ResizeState) (scale : ℚ) (sp : Point) (r : Rectangle) : Rectangle :=
  let dx := (sp.x - rs.start.x) / scale
  let dy := (sp.y - rs.start.y) / scale
  let xA := if rs.part.hasLeft then rs.initX + dx else r.x
  let wA := if rs.part.hasLeft then rs.initW - dx else r.width
  let wB := if rs.part.hasRight then rs.initW + dx else wA
  let yA := if rs.part.hasTop then rs.initY + dy else r.y
  let hA := if rs.part.hasTop then rs.initH - dy else r.height
  let hB := if rs.part.hasBottom then rs.initH + dy else hA
  let minHeight := calculateMinimumHeight r scale
  let minWidth := RECT_STYLE.minWidth / scale
  let xF := if wB < minWidth then (if rs.part.hasLeft then r.x + r.width - minWidth else xA) else xA
  let wF := if wB < minWidth then minWidth else wB
  let yF := if hB < minHeight then (if rs.part.hasTop then r.y + r.height - minHeight else yA) else yA
  let hF := if hB < minHeight then minHeight else hB
  { r with x := xF, y := yF, width := wF, height := hF }

/-- The drag branch of `handlePointerMove`. -/
def dragStep (ds : DragState) (scale : ℚ) (sp : Point) (r : Rectangle) : Rectangle :=
  let dx := (sp.x - ds.start.x) / scale
  let dy := (sp.y - ds.start.y) / scale
  { r with x := ds.initPos.x + dx, y := ds.initPos.y + dy }

/-- The pan branch of `handlePointerMove`: only the translation is
written; the scale field is untouched. -/
def panMove (pn : PanState) (t : Transform) (sp : Point) : Transform :=
  { t with translateX := pn.initTrans.translateX + (sp.x - pn.start.x),
           translateY := pn.initTrans.translateY + (sp.y - pn.start.y) }

/-- Body of `handlePointerMove` once the moving pointer is known to be
tracked and its stored position updated: the branches are tried in the
source order pinch, resize, drag, pan.  Where the TS code mutates a
rectangle through the reference held in the gesture state, we update
the map entry under the recorded key (a no-op if the entry is gone,
matching the invisibility of mutations to a detached object). -/
def handlePointerMoveTracked (c : Chart) (sp : Point) : Chart :=
  if c.pinch.isSome ∧ c.pointers.length = 2 then
    match c.pinch with
    | some pz =>
      match c.pointers.map (fun kv => kv.2) with
      | p0 :: p1 :: _ => { c with transform := pinchMove pz c.transform p0 p1 }
      | _ => c
    | none => c
  else if hrs : c.resizingRect.isSome then
    let rs := c.resizingRect.get hrs
    match getKV c.rectangles rs.rectId with
    | some r =>
      { c with rectangles := setKV c.rectangles rs.rectId (resizeStep rs c.transform.scale sp r) }
    | none => c
  else if hds : c.draggingRect.isSome then
    let ds := c.draggingRect.get hds
    match getKV c.rectangles ds.rectId with
    | some r =>
      { c with rectangles := setKV c.rectangles ds.rectId (dragStep ds c.transform.scale sp r) }
    | none => c
  else if hpn : c.panning.isSome then
    { c with transform := panMove (c.panning.get hpn) c.transform sp }
  else c

/-- `Chart.handlePointerMove(e)`: an untracked pointer only refreshes
the cursor hint (no modelled state change); a tracked pointer has its
stored position updated and is then dispatched to the active branch. -/
def handlePointerMove (c : Chart) (pid : Nat) (sp : Point) : Chart :=
  if hasKV c.pointers pid then
    handlePointerMoveTracked { c with pointers := setKV c.pointers pid sp } sp
  else c

/-- `Chart.handlePointerUp(e)` (also installed for `pointercancel`). -/
def handlePointerUp (c : Chart) (pid : Nat) : Chart :=
  let ptrs := delKV c.pointers pid
  let pinch := if ptrs.length < 2 then none else c.pinch
  if ptrs.length = 0 then
    { c with pointers := ptrs, pinch := pinch,
             draggingRect := none, resizingRect := none, panning := none }
  else
    { c with pointers := ptrs, pinch := pinch }

/-- `Chart.handleWheel(e)` at client position `p` with wheel delta
`deltaY`. -/
def handleWheel (c : Chart) (p : Point) (deltaY : ℚ) : Chart :=
  let delta := -deltaY * 0.001
  let newScale := c.transform.scale * (1 + delta)
  let wx := (p.x - c.transform.translateX) / c.transform.scale
  let wy := (p.y - c.transform.translateY) / c.transform.scale
  { c with transform := { scale := newScale,
                          translateX := p.x - wx * newScale,
                          translateY := p.y - wy * newScale } }

/-- An input event as delivered to the installed listeners.
`pointercancel` shares the `pointerup` handler in `initEvents` and is
therefore the same constructor. -/
inductive Event where
  | down (pid : Nat) (p : Point)
  | move (pid : Nat) (p : Point)
  | up (pid : Nat)
  | wheel (p : Point) (deltaY : ℚ)
deriving DecidableEq

/-- Dispatch one event to its handler. -/
def step (c : Chart) : Event → Chart
  | .down pid p => handlePointerDown c pid p
  | .move pid p => handlePointerMove c pid p
  | .up pid => handlePointerUp c pid
  | .wheel p deltaY => handleWheel c p deltaY

/-- Run a sequence of events. -/
def run (c : Chart) (es : List Event) : Chart :=
  es.foldl step c

/-! Concrete fixtures used by witnesses and counterexamples. -/

/-- A concrete rectangle with one entry, mirroring the default geometry
produced by `addRectangle`. -/
def sampleRect : Rectangle :=
  { x := 0, y := 0, width := 200, height := 120,
    data := { id := "r", title := "T",
              entries := [{ id := "e1", left := "a", right := "b" }] } }

/-- A concrete chart holding `sampleRect` under the identity view
transform, with no gesture active. -/
def sampleChart : Chart :=
  { canvasWidth := 800, canvasHeight := 600,
    rectangles := [("r", sampleRect)],
    transform := { scale := 1, translateX := 0, translateY := 0 },
    pointers := [], connections := [],
    draggingRect := none, resizingRect := none, panning := none, pinch := none }

/-! Claim C3: gesture-state exclusivity. -/

/-- Pairwise exclusivity of the three single-pointer gesture states. -/
def GestureExcl (c : Chart) : Prop :=
  (c.draggingRect = none ∨ c.resizingRect = none) ∧
  (c.draggingRect = none ∨ c.panning = none) ∧
  (c.resizingRect = none ∨ c.panning = none)

/-- Inductive invariant: exclusivity plus the idle-reset property that a
chart with no tracked pointers has no single-pointer gesture active. -/
def GestureInv (c : Chart) : Prop :=
  GestureExcl c ∧
  (c.pointers = [] →
    c.draggingRect = none ∧ c.resizingRect = none ∧ c.panning = none)

/-- Guard on event sequences: a pointer-down uses a fresh pointer id
(no second `pointerdown` for an id already down, as the browser
guarantees) and happens while at most one pointer is already down (the
restriction the counterexample to the original claim forces). -/
def eventOk (c : Chart) : Event → Bool
  | .down pid _ => !(hasKV c.pointers pid) && decide (c.pointers.length ≤ 1)
  | _ => true

/-- Run a sequence of events checking the guard at every step. -/
def guardedRun : Chart → List Event → Bool
  | _, [] => true
  | c, e :: es => eventOk c e && guardedRun (step c e) es

theorem setKV_ne_nil {κ α : Type} [DecidableEq κ] (m : List (κ × α)) (k : κ) (v : α) :
    setKV m k v ≠ [] := by
  cases m with
  | nil => simp [setKV]
  | cons kv rest =>
    simp only [setKV]
    split_ifs <;> simp

theorem moveTracked_gestures (c : Chart) (sp : Point) :
    (handlePointerMoveTracked c sp).draggingRect = c.draggingRect ∧
    (handlePointerMoveTracked c sp).resizingRect = c.resizingRect ∧
    (handlePointerMoveTracked c sp).panning = c.panning ∧
    (handlePointerMoveTracked c sp).pointers = c.pointers := by
  unfold handlePointerMoveTracked
  split_ifs with h1 h2 h3 h4
  · rcases hp : c.pinch with _ | pz
    · simp [hp]
    · rcases hl : c.pointers.map (fun kv => kv.2) with _ | ⟨p0, _ | ⟨p1, rest2⟩⟩ <;>
        simp [hp, hl]
  · rcases hg : getKV c.rectangles (c.resizingRect.get h2).rectId with _ | r <;> simp [hg]
  · rcases hg : getKV c.rectangles (c.draggingRect.get h3).rectId with _ | r <;> simp [hg]
  · simp
  · simp

theorem step_preserves_inv (c : Chart) (e : Event) (hInv : GestureInv c)
    (hok : eventOk c e = true) : GestureInv (step c e) := by
  obtain ⟨hExcl, hEmpty⟩ := hInv
  cases e with
  | wheel p dY => exact ⟨hExcl, hEmpty⟩
  | move pid p =>
    show GestureInv (handlePointerMove c pid p)
    unfold handlePointerMove
    by_cases h : hasKV c.pointers pid
    · rw [if_pos h]
      have hg := moveTracked_gestures { c with pointers := setKV c.pointers pid p } p
      refine ⟨⟨?_, ?_, ?_⟩, ?_⟩
      · rw [hg.1, hg.2.1]
        exact hExcl.1
      · rw [hg.1, hg.2.2.1]
        exact hExcl.2.1
      · rw [hg.2.1, hg.2.2.1]
        exact hExcl.2.2
      · intro hp
        rw [hg.2.2.2] at hp
        exact absurd hp (setKV_ne_nil c.pointers pid p)
    · rw [if_neg h]
      exact ⟨hExcl, hEmpty⟩
  | up pid =>
    show GestureInv (handlePointerUp c pid)
    unfold handlePointerUp
    by_cases h : (delKV c.pointers pid).length = 0
    · rw [if_pos h]
      exact ⟨⟨Or.inl rfl, Or.inl rfl, Or.inl rfl⟩, fun _ => ⟨rfl, rfl, rfl⟩⟩
    · rw [if_neg h]
      refine ⟨hExcl, ?_⟩
      intro hp
      exfalso
      have hnil : delKV c.pointers pid = [] := hp
      exact h (by rw [hnil]; rfl)
  | down pid p =>
    simp only [eventOk, Bool.and_eq_true, Bool.not_eq_true', decide_eq_true_eq] at hok
    obtain ⟨hhas, hlen⟩ := hok
    show GestureInv (handlePointerDown c pid p)
    unfold handlePointerDown
    have hlen1 : (setKV c.pointers pid p).length = c.pointers.length + 1 :=
      length_setKV_of_not_has c.pointers pid p hhas
    by_cases h2 : (setKV c.pointers pid p).length = 2
    · rw [if_pos h2]
      refine ⟨hExcl, ?_⟩
      intro hp
      exfalso
      have : (setKV c.pointers pid p).length = 0 := by
        rw [show setKV c.pointers pid p = [] from hp]
        rfl
      omega
    · rw [if_neg h2]
      rw [hlen1] at h2
      have hc0 : c.pointers = [] :=
        List.length_eq_zero.mp (by omega)
      obtain ⟨hd, hr, hpn⟩ := hEmpty hc0
      have hne : (setKV c.pointers pid p).length ≠ 0 := by omega
      rcases hht : hitTest c (screenToWorld c.transform p.x p.y).x
          (screenToWorld c.transform p.x p.y).y with _ | ⟨rid, rect, part⟩
      · simp only [hht]
        refine ⟨⟨Or.inl hd, Or.inl hd, Or.inl hr⟩, ?_⟩
        intro hp
        exact absurd hp (setKV_ne_nil c.pointers pid p)
      · simp only [hht]
        by_cases hpart : part = HitPart.inside
        · rw [if_pos hpart]
          refine ⟨⟨Or.inr hr, Or.inr hpn, Or.inl hr⟩, ?_⟩
          intro hp
          exact absurd hp (setKV_ne_nil c.pointers pid p)
        · rw [if_neg hpart]
          refine ⟨⟨Or.inl hd, Or.inl hd, Or.inr hpn⟩, ?_⟩
          intro hp
          exact absurd hp (setKV_ne_nil c.pointers pid p)

theorem run_preserves_inv (es : List Event) :
    ∀ c : Chart, GestureInv c → guardedRun c es = true → GestureInv (run c es) := by
  induction es with
  | nil => exact fun c h _ => h
  | cons e rest ih =>
    intro c h hg
    simp only [guardedRun, Bool.and_eq_true] at hg
    exact ih (step c e) (step_preserves_inv c e h hg.1) hg.2

theorem hitTestList_cons_eq (x y : ℚ) (k : String) (r : Rectangle)
    (rest : List (String × Rectangle)) (part : HitPart)
    (h : r.getHitPart x y = some part) :
    hitTestList x y ((k, r) :: rest) = some (k, r, part) := by
  have unf : hitTestList x y ((k, r) :: rest) =
      match r.getHitPart x y with
      | some part => some (k, r, part)
      | none => hitTestList x y rest := rfl
  rw [unf, h]

/-- Claim C3 as stated is false: a pointer-down inside a rectangle
starts a drag, and a second pointer-down then starts a pinch without
clearing the drag state, so `draggingRect` and `pinch` are both set at
once in a state reachable from idle. -/
theorem gesture_overlap_cex :
    (run sampleChart
        [Event.down 1 { x := 100, y := 60 },
         Event.down 2 { x := 400, y := 60 }]).draggingRect.isSome = true ∧
    (run sampleChart
        [Event.down 1 { x := 100, y := 60 },
         Event.down 2 { x := 400, y := 60 }]).pinch.isSome = true := by
  have hL : ¬ nearLeftP sampleRect 100 60 := by
    norm_num [nearLeftP, inYP, edgeThreshold, sampleRect]
  have hR : ¬ nearRightP sampleRect 100 60 := by
    norm_num [nearRightP, inYP, edgeThreshold, sampleRect]
  have hT : ¬ nearTopP sampleRect 100 60 := by
    norm_num [nearTopP, inXP, edgeThreshold, sampleRect]
  have hB : ¬ nearBottomP sampleRect 100 60 := by
    norm_num [nearBottomP, inXP, edgeThreshold, sampleRect]
  have hIn : inXP sampleRect 100 ∧ inYP sampleRect 60 := by
    norm_num [inXP, inYP, edgeThreshold, sampleRect]
  have hHit : sampleRect.getHitPart 100 60 = some HitPart.inside := by
    unfold Rectangle.getHitPart
    rw [if_neg (fun hc => hL hc.1), if_neg (fun hc => hR hc.1),
      if_neg (fun hc => hL hc.1), if_neg (fun hc => hR hc.1),
      if_neg hL, if_neg hR, if_neg hT, if_neg hB, if_pos hIn]
  have hTest : hitTest sampleChart 100 60 = some ("r", sampleRect, HitPart.inside) := by
    unfold hitTest
    rw [show sampleChart.rectangles.reverse = [("r", sampleRect)] from rfl]
    exact hitTestList_cons_eq 100 60 "r" sampleRect [] HitPart.inside hHit
  have hsp : screenToWorld sampleChart.transform 100 60 = { x := 100, y := 60 } := by
    norm_num [screenToWorld, sampleChart, Point.mk.injEq]
  have hFirst : step sampleChart (Event.down 1 { x := 100, y := 60 }) =
      { sampleChart with
        pointers := [(1, { x := 100, y := 60 })],
        draggingRect := some { rectId := "r", start := { x := 100, y := 60 },
                               initPos := { x := 0, y := 0 } } } := by
    show handlePointerDown sampleChart 1 { x := 100, y := 60 } = _
    unfold handlePointerDown
    dsimp only
    rw [show setKV sampleChart.pointers 1 { x := 100, y := 60 } =
        [(1, ({ x := 100, y := 60 } : Point))] from rfl]
    rw [if_neg (by decide : ¬ ([((1 : ℕ), ({ x := 100, y := 60 } : Point))].length = 2))]
    rw [hsp]
    dsimp only
    rw [hTest]
    dsimp only
    rw [if_pos rfl]
    rfl
  have hrun : run sampleChart
      [Event.down 1 { x := 100, y := 60 }, Event.down 2 { x := 400, y := 60 }] =
      step (step sampleChart (Event.down 1 { x := 100, y := 60 }))
        (Event.down 2 { x := 400, y := 60 }) := rfl
  rw [hrun, hFirst]
  exact ⟨rfl, rfl⟩

/-- Claim C3 (amended): in every state reachable from an idle chart by
pointer/wheel events in which each pointer-down uses a fresh pointer id
and occurs while at most one pointer is already down, the three
single-pointer gesture states `draggingRect`, `resizingRect` and
`panning` are pairwise exclusive; the pinch state may be active
simultaneously with one of them (pointer-move then services only the
pinch). -/
theorem gesture_exclusive (c0 : Chart) (es : List Event)
    (_hp0 : c0.pointers = []) (hd0 : c0.draggingRect = none)
    (hr0 : c0.resizingRect = none) (hpan0 : c0.panning = none)
    (hg : guardedRun c0 es = true) :
    GestureExcl (run c0 es) :=
  (run_preserves_inv es c0
    ⟨⟨Or.inl hd0, Or.inl hd0, Or.inl hr0⟩, fun _ => ⟨hd0, hr0, hpan0⟩⟩ hg).1

/-- Witness for `gesture_exclusive`: one guarded pointer-down on
`sampleChart`. -/
theorem gesture_exclusive_witness :
    GestureExcl (run sampleChart [Event.down 1 { x := 0, y := 0 }]) :=
  gesture_exclusive sampleChart [Event.down 1 { x := 0, y := 0 }]
    rfl rfl rfl rfl (by decide)

/-! Claim C1: resize clamping and opposite-edge pinning. -/

theorem hasLeft_not_hasRight (p : HitPart) (h : p.hasLeft = true) :
    p.hasRight = false := by
  cases p <;> simp_all [HitPart.hasLeft, HitPart.hasRight]

theorem hasTop_not_hasBottom (p : HitPart) (h : p.hasTop = true) :
    p.hasBottom = false := by
  cases p <;> simp_all [HitPart.hasTop, HitPart.hasBottom]

theorem resizeStep_data (rs : ResizeState) (scale : ℚ) (sp : Point) (r : Rectangle) :
    (resizeStep rs scale sp r).data = r.data := rfl

theorem resizeStep_width_ge (rs : ResizeState) (scale : ℚ) (sp : Point) (r : Rectangle) :
    RECT_STYLE.minWidth / scale ≤ (resizeStep rs scale sp r).width := by
  simp only [resizeStep]
  split_ifs <;> linarith

theorem resizeStep_height_ge (rs : ResizeState) (scale : ℚ) (sp : Point) (r : Rectangle) :
    calculateMinimumHeight r scale ≤ (resizeStep rs scale sp r).height := by
  simp only [resizeStep]
  split_ifs <;> linarith

theorem resizeStep_pin_right_edge (rs : ResizeState) (scale : ℚ) (sp : Point)
    (r : Rectangle) (hL : rs.part.hasLeft = true)
    (hinv : r.x + r.width = rs.initX + rs.initW) :
    (resizeStep rs scale sp r).x + (resizeStep rs scale sp r).width =
      rs.initX + rs.initW := by
  have hR := hasLeft_not_hasRight rs.part hL
  simp only [resizeStep, hL, hR, if_true, Bool.false_eq_true, if_false]
  split_ifs <;> linarith

theorem resizeStep_keep_x (rs : ResizeState) (scale : ℚ) (sp : Point)
    (r : Rectangle) (hL : rs.part.hasLeft = false) :
    (resizeStep rs scale sp r).x = r.x := by
  simp only [resizeStep, hL, Bool.false_eq_true, if_false]
  split_ifs <;> rfl

theorem resizeStep_pin_bottom_edge (rs : ResizeState) (scale : ℚ) (sp : Point)
    (r : Rectangle) (hT : rs.part.hasTop = true)
    (hinv : r.y + r.height = rs.initY + rs.initH) :
    (resizeStep rs scale sp r).y + (resizeStep rs scale sp r).height =
      rs.initY + rs.initH := by
  have hB := hasTop_not_hasBottom rs.part hT
  simp only [resizeStep, hT, hB, if_true, Bool.false_eq_true, if_false]
  split_ifs <;> linarith

theorem resizeStep_keep_y (rs : ResizeState) (scale : ℚ) (sp : Point)
    (r : Rectangle) (hT : rs.part.hasTop = false) :
    (resizeStep rs scale sp r).y = r.y := by
  simp only [resizeStep, hT, Bool.false_eq_true, if_false]
  split_ifs <;> rfl

/-- Pinning invariant carried through a whole sequence of resize
moves. -/
def PinInv (rs : ResizeState) (r : Rectangle) : Prop :=
  (rs.part.hasLeft = true → r.x + r.width = rs.initX + rs.initW) ∧
  (rs.part.hasRight = true → r.x = rs.initX) ∧
  (rs.part.hasTop = true → r.y + r.height = rs.initY + rs.initH) ∧
  (rs.part.hasBottom = true → r.y = rs.initY)

theorem resizeStep_pinInv (rs : ResizeState) (scale : ℚ) (sp : Point) (r : Rectangle)
    (h : PinInv rs r) : PinInv rs (resizeStep rs scale sp r) := by
  obtain ⟨h1, h2, h3, h4⟩ := h
  refine ⟨?_, ?_, ?_, ?_⟩
  · intro hL
    exact resizeStep_pin_right_edge rs scale sp r hL (h1 hL)
  · intro hR
    have hL : rs.part.hasLeft = false := by
      cases hp : rs.part <;> simp_all [HitPart.hasLeft, HitPart.hasRight]
    rw [resizeStep_keep_x rs scale sp r hL]
    exact h2 hR
  · intro hT
    exact resizeStep_pin_bottom_edge rs scale sp r hT (h3 hT)
  · intro hB
    have hT : rs.part.hasTop = false := by
      cases hp : rs.part <;> simp_all [HitPart.hasTop, HitPart.hasBottom]
    rw [resizeStep_keep_y rs scale sp r hT]
    exact h4 hB

theorem resize_fold_pinInv (rs : ResizeState) (scale : ℚ) (moves : List Point)
    (r : Rectangle) (h : PinInv rs r) :
    PinInv rs (moves.foldl (fun r sp => resizeStep rs scale sp r) r) := by
  induction moves generalizing r with
  | nil => exact h
  | cons m rest ih => exact ih (resizeStep rs scale m r) (resizeStep_pinInv rs scale m r h)

theorem resize_fold_data (rs : ResizeState) (scale : ℚ) (moves : List Point)
    (r : Rectangle) :
    (moves.foldl (fun r sp => resizeStep rs scale sp r) r).data = r.data := by
  induction moves generalizing r with
  | nil => rfl
  | cons m rest ih => exact (ih (resizeStep rs scale m r)).trans (resizeStep_data rs scale m r)

theorem resize_fold_bounds (rs : ResizeState) (scale : ℚ) (moves : List Point)
    (r : Rectangle) (hne : moves ≠ []) :
    RECT_STYLE.minWidth / scale ≤
      (moves.foldl (fun r sp => resizeStep rs scale sp r) r).width ∧
    calculateMinimumHeight r scale ≤
      (moves.foldl (fun r sp => resizeStep rs scale sp r) r).height := by
  induction moves generalizing r with
  | nil => exact absurd rfl hne
  | cons m rest ih =>
    rcases Decidable.em (rest = []) with hr | hr
    · subst hr
      exact ⟨resizeStep_width_ge rs scale m r, resizeStep_height_ge rs scale m r⟩
    · have step := ih (resizeStep rs scale m r) hr
      refine ⟨step.1, ?_⟩
      have hdata : calculateMinimumHeight (resizeStep rs scale m r) scale =
          calculateMinimumHeight r scale := by
        simp [calculateMinimumHeight, resizeStep_data]
      calc calculateMinimumHeight r scale
          = calculateMinimumHeight (resizeStep rs scale m r) scale := hdata.symm
        _ ≤ _ := step.2

/-- Claim C1: during a resize gesture (state `rs` recorded at
pointer-down, geometry `r0` equal to the recorded initial geometry, a
fixed view scale, and any nonempty sequence of pointer-move positions
handled by the resize branch), the final rectangle satisfies
`width >= minWidth / scale` and `height >= calculateMinimumHeight`, and
the edge opposite the dragged part keeps its pre-gesture coordinate:
parts containing "left" preserve `x + width`, parts containing "right"
preserve `x`, parts containing "top" preserve `y + height`, parts
containing "bottom" preserve `y` (corner parts preserve both). -/
theorem resize_gesture_invariant (rs : ResizeState) (scale : ℚ) (r0 : Rectangle)
    (moves : List Point)
    (h0x : r0.x = rs.initX) (h0y : r0.y = rs.initY)
    (h0w : r0.width = rs.initW) (h0h : r0.height = rs.initH)
    (hne : moves ≠ []) :
    RECT_STYLE.minWidth / scale ≤
      (moves.foldl (fun r sp => resizeStep rs scale sp r) r0).width ∧
    calculateMinimumHeight (moves.foldl (fun r sp => resizeStep rs scale sp r) r0) scale ≤
      (moves.foldl (fun r sp => resizeStep rs scale sp r) r0).height ∧
    PinInv rs (moves.foldl (fun r sp => resizeStep rs scale sp r) r0) := by
  have hpin0 : PinInv rs r0 := by
    refine ⟨?_, ?_, ?_, ?_⟩ <;> intro hp <;> simp [h0x, h0y, h0w, h0h]
  have hbounds := resize_fold_bounds rs scale moves r0 hne
  have hdata := resize_fold_data rs scale moves r0
  refine ⟨hbounds.1, ?_, resize_fold_pinInv rs scale moves r0 hpin0⟩
  have : calculateMinimumHeight (moves.foldl (fun r sp => resizeStep rs scale sp r) r0) scale =
      calculateMinimumHeight r0 scale := by
    simp [calculateMinimumHeight, hdata]
  rw [this]
  exact hbounds.2

/-- A concrete resize gesture state: dragging the left edge of
`sampleRect` from screen point `(0, 0)`. -/
def sampleResize : ResizeState :=
  { rectId := "r", part := HitPart.left, start := { x := 0, y := 0 },
    initX := 0, initY := 0, initW := 200, initH := 120 }

/-- Witness for `resize_gesture_invariant`: dragging the left edge of
`sampleRect` 190 world units to the right clamps the width to the
minimum while the right edge `x + width = 200` stays fixed. -/
theorem resize_gesture_invariant_witness :
    RECT_STYLE.minWidth / 1 ≤
      ([({ x := 190, y := 0 } : Point)].foldl
        (fun r sp => resizeStep sampleResize 1 sp r) sampleRect).width ∧
    ([({ x := 190, y := 0 } : Point)].foldl
        (fun r sp => resizeStep sampleResize 1 sp r) sampleRect).x +
      ([({ x := 190, y := 0 } : Point)].foldl
        (fun r sp => resizeStep sampleResize 1 sp r) sampleRect).width =
      sampleResize.initX + sampleResize.initW := by
  have h := resize_gesture_invariant sampleResize 1 sampleRect
    [{ x := 190, y := 0 }] rfl rfl rfl rfl (by simp)
  exact ⟨h.1, h.2.2.1 rfl⟩

/-! Claim C2: the return value of `addRectangle`. -/

/-- Claim C2 as stated is false: the `addRectangle` method body of
`diagram.ts` has no `return` statement, so the call expression
evaluates to `undefined` rather than the id embedded in the payload.
Concretely, adding a payload whose id is `"a"` does not return
`"a"`. -/
theorem addRectangle_return_cex :
    (addRectangle sampleChart { id := "a", title := "", entries := [] } 0 0).2 ≠
      some "a" := by decide

/-- Claim C2 (amended): `addRectangle(data)` returns nothing
(`undefined`); the new rectangle is stored in the entity map under the
embedded id `data.id`, which is therefore the caller-visible id of the
new rectangle. -/
theorem addRectangle_spec (c : Chart) (data : RectData) (rx ry : ℚ) :
    (addRectangle c data rx ry).2 = none ∧
    getKV (addRectangle c data rx ry).1.rectangles data.id =
      some { x := rx * (c.canvasWidth / c.transform.scale - 200),
             y := ry * (c.canvasHeight / c.transform.scale - 120),
             width := 200, height := 120, data := data } := by
  refine ⟨rfl, ?_⟩
  simpa [addRectangle, Rectangle.id] using
    getKV_setKV_self c.rectangles data.id
      { x := rx * (c.canvasWidth / c.transform.scale - 200),
        y := ry * (c.canvasHeight / c.transform.scale - 120),
        width := 200, height := 120, data := data }

/-! Claim C5: positivity of the view scale. -/

/-- Claim C5 as stated is false: a wheel event with `deltaY = 1000`
multiplies the scale by `1 + (-1000 x 0.001) = 0`, so a strictly
positive scale becomes `0`. -/
theorem wheel_scale_cex :
    0 < sampleChart.transform.scale ∧
    ¬ 0 < (handleWheel sampleChart { x := 0, y := 0 } 1000).transform.scale := by
  constructor
  · norm_num [sampleChart]
  · norm_num [handleWheel, sampleChart]

/-- Claim C5 (amended): starting from a transform with positive scale,
a wheel event keeps the scale strictly positive provided
`deltaY < 1000` (so the zoom factor `1 - deltaY/1000` stays positive);
a pinch pointer-move keeps it strictly positive provided the recorded
`startDist` and `startScale` are positive and the two tracked pointers
are at distinct positions; a pan pointer-move never writes the scale at
all. -/
theorem transform_scale_positive (c : Chart) (p : Point) (deltaY : ℚ)
    (pz : PinchState) (t t2 : Transform) (p0 p1 : Point) (pn : PanState) (sp : Point) :
    (0 < c.transform.scale → deltaY < 1000 →
      0 < (handleWheel c p deltaY).transform.scale) ∧
    (0 < pz.startDist → 0 < pz.startScale → p0 ≠ p1 →
      0 < (pinchMove pz t p0 p1).scale) ∧
    (panMove pn t2 sp).scale = t2.scale := by
  refine ⟨?_, ?_, rfl⟩
  · intro hs hd
    show 0 < c.transform.scale * (1 + -deltaY * 0.001)
    have : (0.001 : ℚ) = 1 / 1000 := by norm_num
    apply mul_pos hs
    rw [this]
    linarith
  · intro hsd hss hne
    show 0 < hypot (p1.x - p0.x) (p1.y - p0.y) / pz.startDist * pz.startScale
    have hh : 0 < hypot (p1.x - p0.x) (p1.y - p0.y) := by
      apply hypot_pos
      rintro ⟨hx, hy⟩
      apply hne
      have hx1 : p0.x = p1.x := by linarith [sub_eq_zero.mp hx]
      have hy1 : p0.y = p1.y := by linarith [sub_eq_zero.mp hy]
      cases p0
      cases p1
      simp_all
    exact mul_pos (div_pos hh hsd) hss

/-- Witness for `transform_scale_positive` at concrete inputs: a wheel
event with `deltaY = 100`, a pinch move with pointers `(0,0)` and
`(3,4)` from `startDist = 5`, and a pan move. -/
theorem transform_scale_positive_witness :
    0 < (handleWheel sampleChart { x := 0, y := 0 } 100).transform.scale ∧
    0 < (pinchMove { startDist := 5, startScale := 1, mid := { x := 0, y := 0 } }
          { scale := 1, translateX := 0, translateY := 0 }
          { x := 0, y := 0 } { x := 3, y := 4 }).scale ∧
    (panMove { start := { x := 0, y := 0 },
               initTrans := { scale := 1, translateX := 0, translateY := 0 } }
      { scale := 2, translateX := 5, translateY := 7 } { x := 10, y := 10 }).scale =
      ({ scale := 2, translateX := 5, translateY := 7 } : Transform).scale := by
  obtain ⟨h1, h2, h3⟩ :=
    transform_scale_positive sampleChart { x := 0, y := 0 } 100
      { startDist := 5, startScale := 1, mid := { x := 0, y := 0 } }
      { scale := 1, translateX := 0, translateY := 0 }
      { scale := 2, translateX := 5, translateY := 7 }
      { x := 0, y := 0 } { x := 3, y := 4 }
      { start := { x := 0, y := 0 },
        initTrans := { scale := 1, translateX := 0, translateY := 0 } }
      { x := 10, y := 10 }
  exact ⟨h1 (by norm_num [sampleChart]) (by norm_num),
         h2 (by norm_num) (by norm_num) (by simp [Point.mk.injEq]), h3⟩

/-! Claim C6: hit classification. -/

/-- A rectangle thinner than twice the edge threshold, used to refute
claim C6 as stated for arbitrary rectangles. -/
def thinRect : Rectangle :=
  { x := 0, y := 0, width := 4, height := 40,
    data := { id := "thin", title := "T", entries := [] } }

/-- Claim C6 as stated is false: it quantifies over every rectangle,
but for a rectangle narrower than twice the edge threshold the point
exactly at the right-edge midpoint also lies in the left band, which is
tested first, so it classifies as `left` instead of `right`.
`thinRect` has width 4; its right-edge midpoint is `(4, 20)`. -/
theorem hit_midpoint_cex :
    thinRect.getHitPart (thinRect.x + thinRect.width)
        (thinRect.y + thinRect.height / 2) = some HitPart.left ∧
    some HitPart.left ≠ some HitPart.right := by
  constructor
  · norm_num [Rectangle.getHitPart, nearLeftP, nearRightP, nearTopP, nearBottomP,
      inXP, inYP, thinRect, edgeThreshold]
  · decide

/-- Claim C6 (amended): for every rectangle whose width and height are
at least twice the edge threshold, a point exactly at an edge's
midpoint classifies as that edge (not inside, not a corner); a point
within the threshold of two adjacent edge lines classifies as the
corresponding corner (the extended-span conditions hold automatically
there), never as a single edge; and `getHitPart` returns `inside` only
for points strictly within the rectangle that lie in no edge band. -/
theorem getHitPart_classification (r : Rectangle) (px py : ℚ)
    (hw : 2 * edgeThreshold ≤ r.width) (hh : 2 * edgeThreshold ≤ r.height) :
    r.getHitPart r.x (r.y + r.height / 2) = some HitPart.left ∧
    r.getHitPart (r.x + r.width) (r.y + r.height / 2) = some HitPart.right ∧
    r.getHitPart (r.x + r.width / 2) r.y = some HitPart.top ∧
    r.getHitPart (r.x + r.width / 2) (r.y + r.height) = some HitPart.bottom ∧
    (|px - r.x| < edgeThreshold → |py - r.y| < edgeThreshold →
      r.getHitPart px py = some HitPart.topLeft) ∧
    (|px - (r.x + r.width)| < edgeThreshold → |py - r.y| < edgeThreshold →
      r.getHitPart px py = some HitPart.topRight) ∧
    (|px - r.x| < edgeThreshold → |py - (r.y + r.height)| < edgeThreshold →
      r.getHitPart px py = some HitPart.bottomLeft) ∧
    (|px - (r.x + r.width)| < edgeThreshold → |py - (r.y + r.height)| < edgeThreshold →
      r.getHitPart px py = some HitPart.bottomRight) ∧
    (r.getHitPart px py = some HitPart.inside →
      (r.x < px ∧ px < r.x + r.width ∧ r.y < py ∧ py < r.y + r.height) ∧
      edgeThreshold ≤ |px - r.x| ∧ edgeThreshold ≤ |px - (r.x + r.width)| ∧
      edgeThreshold ≤ |py - r.y| ∧ edgeThreshold ≤ |py - (r.y + r.height)|) := by
  have ht0 : (0 : ℚ) < edgeThreshold := by norm_num [edgeThreshold]
  have hw6 : 2 * edgeThreshold ≤ r.width := hw
  have hh6 : 2 * edgeThreshold ≤ r.height := hh
  refine ⟨?_, ?_, ?_, ?_, ?_, ?_, ?_, ?_, ?_⟩
  · -- left-edge midpoint
    have hTa : ¬ |r.y + r.height / 2 - r.y| < edgeThreshold := by
      rw [show r.y + r.height / 2 - r.y = r.height / 2 by ring,
        abs_of_nonneg (by linarith)]
      linarith
    have hBa : ¬ |r.y + r.height / 2 - (r.y + r.height)| < edgeThreshold := by
      rw [show r.y + r.height / 2 - (r.y + r.height) = -(r.height / 2) by ring,
        abs_neg, abs_of_nonneg (by linarith)]
      linarith
    have hnL : nearLeftP r r.x (r.y + r.height / 2) :=
      ⟨by simpa using ht0, by constructor <;> linarith⟩
    simp only [Rectangle.getHitPart]
    rw [if_neg (fun hc => hTa hc.2.1), if_neg (fun hc => hTa hc.2.1),
      if_neg (fun hc => hBa hc.2.1), if_neg (fun hc => hBa hc.2.1),
      if_pos hnL]
  · -- right-edge midpoint
    have hTa : ¬ |r.y + r.height / 2 - r.y| < edgeThreshold := by
      rw [show r.y + r.height / 2 - r.y = r.height / 2 by ring,
        abs_of_nonneg (by linarith)]
      linarith
    have hBa : ¬ |r.y + r.height / 2 - (r.y + r.height)| < edgeThreshold := by
      rw [show r.y + r.height / 2 - (r.y + r.height) = -(r.height / 2) by ring,
        abs_neg, abs_of_nonneg (by linarith)]
      linarith
    have hLa : ¬ |r.x + r.width - r.x| < edgeThreshold := by
      rw [show r.x + r.width - r.x = r.width by ring, abs_of_nonneg (by linarith)]
      linarith
    have hnR : nearRightP r (r.x + r.width) (r.y + r.height / 2) :=
      ⟨by simpa using ht0, by constructor <;> linarith⟩
    simp only [Rectangle.getHitPart]
    rw [if_neg (fun hc => hTa hc.2.1), if_neg (fun hc => hTa hc.2.1),
      if_neg (fun hc => hBa hc.2.1), if_neg (fun hc => hBa hc.2.1),
      if_neg (fun hc => hLa hc.1), if_pos hnR]
  · -- top-edge midpoint
    have hLa : ¬ |r.x + r.width / 2 - r.x| < edgeThreshold := by
      rw [show r.x + r.width / 2 - r.x = r.width / 2 by ring,
        abs_of_nonneg (by linarith)]
      linarith
    have hRa : ¬ |r.x + r.width / 2 - (r.x + r.width)| < edgeThreshold := by
      rw [show r.x + r.width / 2 - (r.x + r.width) = -(r.width / 2) by ring,
        abs_neg, abs_of_nonneg (by linarith)]
      linarith
    have hnT : nearTopP r (r.x + r.width / 2) r.y :=
      ⟨by simpa using ht0, by constructor <;> linarith⟩
    simp only [Rectangle.getHitPart]
    rw [if_neg (fun hc => hLa hc.1.1), if_neg (fun hc => hRa hc.1.1),
      if_neg (fun hc => hLa hc.1.1), if_neg (fun hc => hRa hc.1.1),
      if_neg (fun hc => hLa hc.1), if_neg (fun hc => hRa hc.1), if_pos hnT]
  · -- bottom-edge midpoint
    have hLa : ¬ |r.x + r.width / 2 - r.x| < edgeThreshold := by
      rw [show r.x + r.width / 2 - r.x = r.width / 2 by ring,
        abs_of_nonneg (by linarith)]
      linarith
    have hRa : ¬ |r.x + r.width / 2 - (r.x + r.width)| < edgeThreshold := by
      rw [show r.x + r.width / 2 - (r.x + r.width) = -(r.width / 2) by ring,
        abs_neg, abs_of_nonneg (by linarith)]
      linarith
    have hTa : ¬ |r.y + r.height - r.y| < edgeThreshold := by
      rw [show r.y + r.height - r.y = r.height by ring, abs_of_nonneg (by linarith)]
      linarith
    have hnB : nearBottomP r (r.x + r.width / 2) (r.y + r.height) :=
      ⟨by simpa using ht0, by constructor <;> linarith⟩
    simp only [Rectangle.getHitPart]
    rw [if_neg (fun hc => hLa hc.1.1), if_neg (fun hc => hRa hc.1.1),
      if_neg (fun hc => hLa hc.1.1), if_neg (fun hc => hRa hc.1.1),
      if_neg (fun hc => hLa hc.1), if_neg (fun hc => hRa hc.1),
      if_neg (fun hc => hTa hc.1), if_pos hnB]
  · -- top-left corner band
    intro hpx hpy
    obtain ⟨ha, hb⟩ := abs_lt.mp hpx
    obtain ⟨hc, hd⟩ := abs_lt.mp hpy
    have hc1 : nearLeftP r px py ∧ nearTopP r px py :=
      ⟨⟨hpx, by constructor <;> linarith⟩, ⟨hpy, by constructor <;> linarith⟩⟩
    simp only [Rectangle.getHitPart]
    rw [if_pos hc1]
  · -- top-right corner band
    intro hpx hpy
    obtain ⟨ha, hb⟩ := abs_lt.mp hpx
    obtain ⟨hc, hd⟩ := abs_lt.mp hpy
    have hnl : ¬ |px - r.x| < edgeThreshold := by
      intro hcon
      have := (abs_lt.mp hcon).2
      linarith
    have hc2 : nearRightP r px py ∧ nearTopP r px py :=
      ⟨⟨hpx, by constructor <;> linarith⟩, ⟨hpy, by constructor <;> linarith⟩⟩
    simp only [Rectangle.getHitPart]
    rw [if_neg (fun hcc => hnl hcc.1.1), if_pos hc2]
  · -- bottom-left corner band
    intro hpx hpy
    obtain ⟨ha, hb⟩ := abs_lt.mp hpx
    obtain ⟨hc, hd⟩ := abs_lt.mp hpy
    have hnt : ¬ |py - r.y| < edgeThreshold := by
      intro hcon
      have := (abs_lt.mp hcon).2
      linarith
    have hc3 : nearLeftP r px py ∧ nearBottomP r px py :=
      ⟨⟨hpx, by constructor <;> linarith⟩, ⟨hpy, by constructor <;> linarith⟩⟩
    simp only [Rectangle.getHitPart]
    rw [if_neg (fun hcc => hnt hcc.2.1), if_neg (fun hcc => hnt hcc.2.1), if_pos hc3]
  · -- bottom-right corner band
    intro hpx hpy
    obtain ⟨ha, hb⟩ := abs_lt.mp hpx
    obtain ⟨hc, hd⟩ := abs_lt.mp hpy
    have hnl : ¬ |px - r.x| < edgeThreshold := by
      intro hcon
      have := (abs_lt.mp hcon).2
      linarith
    have hnt : ¬ |py - r.y| < edgeThreshold := by
      intro hcon
      have := (abs_lt.mp hcon).2
      linarith
    have hc4 : nearRightP r px py ∧ nearBottomP r px py :=
      ⟨⟨hpx, by constructor <;> linarith⟩, ⟨hpy, by constructor <;> linarith⟩⟩
    simp only [Rectangle.getHitPart]
    rw [if_neg (fun hcc => hnl hcc.1.1), if_neg (fun hcc => hnt hcc.2.1),
      if_neg (fun hcc => hnl hcc.1.1), if_pos hc4]
  · -- inside is strict and outside every band
    intro h
    simp only [Rectangle.getHitPart] at h
    by_cases b1 : nearLeftP r px py ∧ nearTopP r px py
    · rw [if_pos b1] at h
      simp at h
    rw [if_neg b1] at h
    by_cases b2 : nearRightP r px py ∧ nearTopP r px py
    · rw [if_pos b2] at h
      simp at h
    rw [if_neg b2] at h
    by_cases b3 : nearLeftP r px py ∧ nearBottomP r px py
    · rw [if_pos b3] at h
      simp at h
    rw [if_neg b3] at h
    by_cases b4 : nearRightP r px py ∧ nearBottomP r px py
    · rw [if_pos b4] at h
      simp at h
    rw [if_neg b4] at h
    by_cases b5 : nearLeftP r px py
    · rw [if_pos b5] at h
      simp at h
    rw [if_neg b5] at h
    by_cases b6 : nearRightP r px py
    · rw [if_pos b6] at h
      simp at h
    rw [if_neg b6] at h
    by_cases b7 : nearTopP r px py
    · rw [if_pos b7] at h
      simp at h
    rw [if_neg b7] at h
    by_cases b8 : nearBottomP r px py
    · rw [if_pos b8] at h
      simp at h
    rw [if_neg b8] at h
    by_cases b9 : inXP r px ∧ inYP r py
    case neg =>
      rw [if_neg b9] at h
      simp at h
    rw [if_pos b9] at h
    obtain ⟨hXP, hYP⟩ := b9
    obtain ⟨hx1, hx2⟩ := hXP
    obtain ⟨hy1, hy2⟩ := hYP
    have hL : edgeThreshold ≤ |px - r.x| :=
      not_lt.mp (fun hcn => b5 ⟨hcn, hy1, hy2⟩)
    have hR : edgeThreshold ≤ |px - (r.x + r.width)| :=
      not_lt.mp (fun hcn => b6 ⟨hcn, hy1, hy2⟩)
    have hT : edgeThreshold ≤ |py - r.y| :=
      not_lt.mp (fun hcn => b7 ⟨hcn, hx1, hx2⟩)
    have hB : edgeThreshold ≤ |py - (r.y + r.height)| :=
      not_lt.mp (fun hcn => b8 ⟨hcn, hx1, hx2⟩)
    have hL1 : r.x + edgeThreshold ≤ px := by
      rcases le_abs.mp hL with hgood | hbad
      · linarith
      · linarith
    have hR1 : px ≤ r.x + r.width - edgeThreshold := by
      rcases le_abs.mp hR with hbad | hgood
      · linarith
      · linarith
    have hT1 : r.y + edgeThreshold ≤ py := by
      rcases le_abs.mp hT with hgood | hbad
      · linarith
      · linarith
    have hB1 : py ≤ r.y + r.height - edgeThreshold := by
      rcases le_abs.mp hB with hbad | hgood
      · linarith
      · linarith
    exact ⟨⟨by linarith, by linarith, by linarith, by linarith⟩, hL, hR, hT, hB⟩

/-- Witness for `getHitPart_classification` on `sampleRect`
(200 x 120): the left-edge midpoint classifies `left` and the point
`(3, 2)` in the top-left corner band classifies `top-left`. -/
theorem getHitPart_classification_witness :
    sampleRect.getHitPart sampleRect.x (sampleRect.y + sampleRect.height / 2) =
      some HitPart.left ∧
    sampleRect.getHitPart 3 2 = some HitPart.topLeft := by
  have h := getHitPart_classification sampleRect 3 2
    (by norm_num [sampleRect, edgeThreshold]) (by norm_num [sampleRect, edgeThreshold])
  exact ⟨h.1, h.2.2.2.2.1 (by norm_num [sampleRect, edgeThreshold])
    (by norm_num [sampleRect, edgeThreshold])⟩

/-! Claim C7: connection anchor points. -/

/-- Claim C7 as stated is false: for an endpoint that resolves to an
existing rectangle but names no entry, the code falls back to the
rectangle's centre, not to the right/left edge.  For `sampleRect`
(x = 0, width = 200) the "from"-side anchor is `(100, 60)`, whose x is
not on the right edge `x + width = 200`. -/
theorem endpoint_fallback_cex :
    getEndpointPosition sampleChart { rectId := "r", entryId := none } true =
      { x := 100, y := 60 } ∧
    (100 : ℚ) ≠ sampleRect.x + sampleRect.width := by
  constructor
  · norm_num [getEndpointPosition, getKV, sampleChart, sampleRect, Point.mk.injEq]
  · norm_num [sampleRect]

/-- Claim C7 (amended): for an endpoint resolving to an existing
rectangle, if it names no entry, or an empty entry id, or an entry id
absent from the rectangle's entry list, both the "from"- and the
"to"-side anchors are the rectangle's centre; if it names an entry at
index `idx`, the anchor's y is the vertical middle of that entry's row
and its x is inset by the scaled padding from the right edge when used
as "from" and from the left edge when used as "to". -/
theorem endpoint_anchor_spec (c : Chart) (ep : Endpoint) (isFrom : Bool)
    (r : Rectangle) (hr : getKV c.rectangles ep.rectId = some r)
    (eid : String) (idx : ℕ) :
    (ep.entryId = none →
      getEndpointPosition c ep isFrom = { x := r.x + r.width / 2, y := r.y + r.height / 2 }) ∧
    (ep.entryId = some eid → eid = "" ∨ r.data.entries.findIdx? (fun e => e.id = eid) = none →
      getEndpointPosition c ep isFrom = { x := r.x + r.width / 2, y := r.y + r.height / 2 }) ∧
    (ep.entryId = some eid → ¬ eid = "" →
      r.data.entries.findIdx? (fun e => e.id = eid) = some idx →
      getEndpointPosition c ep isFrom =
        { x := if isFrom then r.x + r.width - RECT_STYLE.padding / c.transform.scale
               else r.x + RECT_STYLE.padding / c.transform.scale,
          y := r.y + RECT_STYLE.padding / c.transform.scale +
               RECT_STYLE.titleFontSize / c.transform.scale * 1.2 +
               (idx : ℚ) * (RECT_STYLE.lineHeight / c.transform.scale) +
               RECT_STYLE.lineHeight / c.transform.scale / 2 }) := by
  refine ⟨?_, ?_, ?_⟩
  · intro h
    simp [getEndpointPosition, hr, h]
  · intro h hcase
    rcases hcase with he | hf
    · simp [getEndpointPosition, hr, h, he]
    · by_cases he : eid = ""
      · simp [getEndpointPosition, hr, h, he]
      · simp [getEndpointPosition, hr, h, he, hf]
  · intro h hne hf
    simp [getEndpointPosition, hr, h, hne, hf]

/-- Witness for `endpoint_anchor_spec`: in `sampleChart`, the endpoint
naming entry `"e1"` of rectangle `"r"` anchors, as "from" side, at the
padding-inset right edge and the vertical middle of row 0. -/
theorem endpoint_anchor_spec_witness :
    getEndpointPosition sampleChart { rectId := "r", entryId := some "e1" } true =
      { x := 192, y := 181 / 5 } := by
  have h :=
    (endpoint_anchor_spec sampleChart { rectId := "r", entryId := some "e1" } true
      sampleRect rfl "e1" 0).2.2 rfl (by decide) rfl
  rw [h]
  norm_num [sampleRect, RECT_STYLE, sampleChart, Point.mk.injEq]

/-! Claim C4: pinch scale formula and pivot invariance. -/

/-- Claim C4 as stated is false: pivot invariance is claimed after
every pinch pointer-move of a gesture started with `startDist > 0`, but
if the two tracked pointers coincide during the gesture the recomputed
scale is `0`, and the midpoint no longer maps to its previous world
point.  Concretely, with `startDist = 5`, identity transform and both
pointers at the origin, the midpoint `(10, 0)` maps to world `(10, 0)`
before the move and no longer afterwards. -/
theorem pinch_pivot_cex :
    (0 : ℚ) <
      ({ startDist := 5, startScale := 1, mid := { x := 10, y := 0 } } : PinchState).startDist ∧
    screenToWorld
        (pinchMove { startDist := 5, startScale := 1, mid := { x := 10, y := 0 } }
          { scale := 1, translateX := 0, translateY := 0 }
          { x := 0, y := 0 } { x := 0, y := 0 })
        10 0 ≠
      screenToWorld { scale := 1, translateX := 0, translateY := 0 } 10 0 := by
  constructor
  · norm_num
  · norm_num [pinchMove, screenToWorld, hypot, ratSqrt, Point.mk.injEq]

/-- Claim C4 (amended): after each pinch pointer-move the transform's
scale equals `startScale x (currentDist / startDist)`, where
`currentDist` is the distance between the two tracked pointers; and
whenever the two pointers are distinct (so `currentDist > 0`), the
recorded midpoint maps to the same world point before and after the
move. -/
theorem pinch_move_spec (pz : PinchState) (t : Transform) (p0 p1 : Point)
    (hsd : 0 < pz.startDist) (hss : 0 < pz.startScale) :
    (pinchMove pz t p0 p1).scale =
      pz.startScale * (hypot (p1.x - p0.x) (p1.y - p0.y) / pz.startDist) ∧
    (p0 ≠ p1 →
      screenToWorld (pinchMove pz t p0 p1) pz.mid.x pz.mid.y =
        screenToWorld t pz.mid.x pz.mid.y) := by
  constructor
  · show hypot (p1.x - p0.x) (p1.y - p0.y) / pz.startDist * pz.startScale = _
    ring
  · intro hne
    have hh : 0 < hypot (p1.x - p0.x) (p1.y - p0.y) := by
      apply hypot_pos
      rintro ⟨hx, hy⟩
      apply hne
      have hx1 : p0.x = p1.x := by linarith [sub_eq_zero.mp hx]
      have hy1 : p0.y = p1.y := by linarith [sub_eq_zero.mp hy]
      cases p0
      cases p1
      simp_all
    have hs : hypot (p1.x - p0.x) (p1.y - p0.y) / pz.startDist * pz.startScale ≠ 0 :=
      ne_of_gt (mul_pos (div_pos hh hsd) hss)
    have key : ∀ m a : ℚ,
        (m - (m - a * (hypot (p1.x - p0.x) (p1.y - p0.y) / pz.startDist * pz.startScale))) /
            (hypot (p1.x - p0.x) (p1.y - p0.y) / pz.startDist * pz.startScale) = a := by
      intro m a
      rw [show m - (m - a * (hypot (p1.x - p0.x) (p1.y - p0.y) / pz.startDist * pz.startScale)) =
          a * (hypot (p1.x - p0.x) (p1.y - p0.y) / pz.startDist * pz.startScale) by ring]
      exact mul_div_cancel_right₀ a hs
    simp only [pinchMove, screenToWorld, Point.mk.injEq]
    exact ⟨key _ _, key _ _⟩

/-- Witness for `pinch_move_spec`: a pinch recorded at `startDist = 5`
with `startScale = 2` and midpoint `(10, 0)`, moved so the pointers sit
at `(0, 0)` and `(3, 4)` (distance 5), yields scale `2` and keeps the
midpoint's world image. -/
theorem pinch_move_spec_witness :
    (pinchMove { startDist := 5, startScale := 2, mid := { x := 10, y := 0 } }
        { scale := 1, translateX := 0, translateY := 0 }
        { x := 0, y := 0 } { x := 3, y := 4 }).scale = 2 ∧
    screenToWorld
        (pinchMove { startDist := 5, startScale := 2, mid := { x := 10, y := 0 } }
          { scale := 1, translateX := 0, translateY := 0 }
          { x := 0, y := 0 } { x := 3, y := 4 })
        10 0 =
      screenToWorld { scale := 1, translateX := 0, translateY := 0 } 10 0 := by
  have hcalc : hypot (3 : ℚ) (4 : ℚ) = 5 := by
    unfold hypot
    rw [show ((3 : ℚ) * 3 + 4 * 4) = 25 by norm_num]
    unfold ratSqrt
    rw [show ((25 : ℚ)).num.toNat = 25 by rw [show ((25 : ℚ)).num = 25 by norm_num]; omega,
      show ((25 : ℚ)).den = 1 by norm_num,
      show Nat.sqrt 25 = 5 by rw [show (25 : ℕ) = 5 * 5 from rfl, Nat.sqrt_eq], Nat.sqrt_one]
    norm_num
  have h := pinch_move_spec
    { startDist := 5, startScale := 2, mid := { x := 10, y := 0 } }
    { scale := 1, translateX := 0, translateY := 0 }
    { x := 0, y := 0 } { x := 3, y := 4 } (by norm_num) (by norm_num)
  constructor
  · rw [h.1]
    norm_num [hcalc]
  · exact h.2 (by simp [Point.mk.injEq])

/-! Claim C8: dangling endpoints and connection survival. -/

/-- Claim C8: a connection endpoint whose rectangle id is absent from
the entity map resolves to the world origin `(0, 0)`, and removing any
entity leaves the connection map untouched, so every previously added
connection is still returned by `getConnections`. -/
theorem dangling_connection_spec (c : Chart) (ep : Endpoint) (isFrom : Bool)
    (h : getKV c.rectangles ep.rectId = none) (id : String) :
    getEndpointPosition c ep isFrom = { x := 0, y := 0 } ∧
    getConnections (removeRectangle c id).1 = getConnections c := by
  constructor
  · simp [getEndpointPosition, h]
  · rfl

/-- Witness for `dangling_connection_spec`: the id `"zz"` is absent
from `sampleChart`, and removing `"r"` keeps `getConnections` intact. -/
theorem dangling_connection_spec_witness :
    getEndpointPosition sampleChart { rectId := "zz", entryId := none } true =
      { x := 0, y := 0 } ∧
    getConnections (removeRectangle sampleChart "r").1 = getConnections sampleChart :=
  dangling_connection_spec sampleChart { rectId := "zz", entryId := none } true
    (by decide) "r"

/-! Claim C9: adding a payload under an existing id. -/

/-- Claim C9: when `addRectangle` is called with a payload whose id
already keys an entity, the existing entry is silently replaced: the
map size is unchanged and the stored rectangle is rebuilt with the
fresh random position and the fixed default size 200 x 120, discarding
the old geometry. -/
theorem addRectangle_replace_spec (c : Chart) (data : RectData) (rx ry : ℚ)
    (h : hasKV c.rectangles data.id = true) :
    (addRectangle c data rx ry).1.rectangles.length = c.rectangles.length ∧
    getKV (addRectangle c data rx ry).1.rectangles data.id =
      some { x := rx * (c.canvasWidth / c.transform.scale - 200),
             y := ry * (c.canvasHeight / c.transform.scale - 120),
             width := 200, height := 120, data := data } := by
  constructor
  · simpa [addRectangle, Rectangle.id] using
      length_setKV_of_has c.rectangles data.id
        { x := rx * (c.canvasWidth / c.transform.scale - 200),
          y := ry * (c.canvasHeight / c.transform.scale - 120),
          width := 200, height := 120, data := data } h
  · simpa [addRectangle, Rectangle.id] using
      getKV_setKV_self c.rectangles data.id
        { x := rx * (c.canvasWidth / c.transform.scale - 200),
          y := ry * (c.canvasHeight / c.transform.scale - 120),
          width := 200, height := 120, data := data }

/-- Witness for `addRectangle_replace_spec`: re-adding the payload of
`sampleRect` (id `"r"`, already present) keeps the map size at 1 and
replaces the entry with a rectangle at the drawn position `(300, 160)`
of size 200 x 120. -/
theorem addRectangle_replace_spec_witness :
    (addRectangle sampleChart sampleRect.data (1 / 2) (1 / 3)).1.rectangles.length = 1 ∧
    getKV (addRectangle sampleChart sampleRect.data (1 / 2) (1 / 3)).1.rectangles
        sampleRect.data.id =
      some { x := 300, y := 160, width := 200, height := 120, data := sampleRect.data } := by
  have h := addRectangle_replace_spec sampleChart sampleRect.data (1 / 2) (1 / 3)
    (by norm_num [hasKV, getKV, sampleChart, sampleRect])
  constructor
  · rw [h.1]
    norm_num [sampleChart]
  · rw [h.2]
    norm_num [sampleChart, Rectangle.mk.injEq]

/-! Claim C10: `updateRectangle` stores the payload verbatim. -/

/-- Claim C10: whenever `updateRectangle(id, data)` returns true, the
entity remains stored under (and retrievable by) the original map key
`id` with only its payload replaced, and the entity's `id` getter then
reports `data.id`, which the method never validates against the key. -/
theorem updateRectangle_spec (c : Chart) (id : String) (data : RectData)
    (r : Rectangle) (hr : getKV c.rectangles id = some r) :
    (updateRectangle c id data).2 = true ∧
    getKV (updateRectangle c id data).1.rectangles id = some { r with data := data } ∧
    Rectangle.id { r with data := data } = data.id := by
  refine ⟨?_, ?_, rfl⟩
  · simp [updateRectangle, hr]
  · simp only [updateRectangle, hr]
    exact getKV_setKV_self c.rectangles id { r with data := data }

/-- Witness for `updateRectangle_spec`: updating key `"r"` with a
payload whose own id is `"other"` succeeds, keeps the entity under key
`"r"`, and makes its `id` getter report `"other"`. -/
theorem updateRectangle_spec_witness :
    (updateRectangle sampleChart "r" { id := "other", title := "New", entries := [] }).2 = true ∧
    getKV (updateRectangle sampleChart "r"
        { id := "other", title := "New", entries := [] }).1.rectangles "r" =
      some { sampleRect with data := { id := "other", title := "New", entries := [] } } ∧
    Rectangle.id { sampleRect with data := ({ id := "other", title := "New", entries := [] } : RectData) } =
      "other" := by
  have h := updateRectangle_spec sampleChart "r"
    { id := "other", title := "New", entries := [] } sampleRect (by decide)
  exact ⟨h.1, h.2.1, h.2.2⟩

end Diagram
